import Mathlib

/-!
Verification of the action registry and invocation engine of the
alfred-webbutton workflow (source files `command.py`, `filter.py`,
`common.py`).

The Python source is shallowly embedded: each command is a pure function
from the persisted registry (a list of button records) to an exit code and
the registry that ends up persisted.  Python dictionaries for
headers/cookies are modelled as insertion-ordered association lists with
in-place update (`upsert`), matching CPython dict semantics.  Network and
filesystem effects are modelled by explicit oracle parameters.
-/

namespace AlfredWebbutton

/-! ## String helpers modelling the Python built-ins used by the source -/

/-- Python `s.startswith(pre)`. -/
def pyStartsWith (s pre : String) : Bool :=
  List.isPrefixOf pre.toList s.toList

/-- Python `s.endswith(suf)`. -/
def pyEndsWith (s suf : String) : Bool :=
  List.isSuffixOf suf.toList s.toList

/-- Python `s.lower()` (ASCII range; the source only compares ASCII tokens). -/
def pyLower (s : String) : String :=
  String.mk (s.toList.map Char.toLower)

/-- Python `s.strip()`: drop whitespace from both ends. -/
def pyStrip (s : String) : String :=
  String.mk (((s.toList.dropWhile Char.isWhitespace).reverse.dropWhile
    Char.isWhitespace).reverse)

/-- Python `needle in hay` on strings (contiguous substring test). -/
def isSubstring (needle : List Char) : List Char → Bool
  | [] => needle.isEmpty
  | c :: t => List.isPrefixOf needle (c :: t) || isSubstring needle t

/-- Python `' '.join(parts)` as used for re-assembling multi-token values. -/
def pyJoinSpace : List String → String
  | [] => ""
  | [s] => s
  | s :: rest => s ++ " " ++ pyJoinSpace rest

/-- Split a character list at every occurrence of `sep`, keeping empty
segments, as Python `s.split(sep)` does for a one-character separator. -/
def splitCharList (sep : Char) : List Char → List (List Char)
  | [] => [[]]
  | c :: rest =>
    match splitCharList sep rest with
    | [] => if c = sep then [[], []] else [[c]]
    | h :: t => if c = sep then [] :: h :: t else (c :: h) :: t

/-- Python `s.split(';')`. -/
def pySplitSemi (s : String) : List String :=
  (splitCharList ';' s.toList).map String.mk

/-- Split at the first `'='`: Python `s.split('=', 1)`; `none` when the
string contains no `'='` (the two-part split fails). -/
def splitFirstEq (s : String) : Option (String × String) :=
  go s.toList |>.map (fun p => (String.mk p.1, String.mk p.2))
where
  go : List Char → Option (List Char × List Char)
    | [] => none
    | '=' :: rest => some ([], rest)
    | c :: rest => (go rest).map (fun p => (c :: p.1, p.2))

/-- Python `netloc.replace("www.", "")`: remove every leftmost,
non-overlapping occurrence of the four characters `www.` (not only a
leading prefix — `str.replace` replaces all occurrences). -/
def stripWWW : List Char → List Char
  | 'w' :: 'w' :: 'w' :: '.' :: rest => stripWWW rest
  | c :: rest => c :: stripWWW rest
  | [] => []

/-- CPython dict update `d[k] = v` on an insertion-ordered association
list: an existing key keeps its position and gets the new value, a new key
is appended at the end. -/
def upsert (k v : String) : List (String × String) → List (String × String)
  | [] => [(k, v)]
  | (k', v') :: rest => if k' = k then (k, v) :: rest else (k', v') :: upsert k v rest

/-! ## Data model (§3 of the source's persisted schema)

A stored button record is a Python dict.  The keys `name`, `url`,
`headers`, `cookies` are written by every creation path; `mode`, `method`,
`body`, `last_used` may be absent (`Option`), matching the source's
pervasive `button.get(key, default)` reads and the `'last_used' not in
button` backfill in `filter.py`. -/

inductive Mode where
  | browser
  | quiet
deriving Repr, DecidableEq

inductive Method where
  | GET
  | POST
deriving Repr, DecidableEq

structure Button where
  name : String
  url : String
  headers : List (String × String)
  cookies : List (String × String)
  mode : Option Mode
  method : Option Method
  body : Option String
  last_used : Option Nat
deriving Repr, DecidableEq

/-- The persisted registry: the ordered list of button records stored
under the single key `web_buttons`. -/
abbrev Registry := List Button

/-- Replace the first button whose `name` equals `n` by its image under
`f`, leaving everything else in place: the Python pattern
`next((b for b in buttons if b['name'] == name), None)` followed by an
in-place mutation of the found dict. -/
def updateFirst (n : String) (f : Button → Button) : Registry → Registry
  | [] => []
  | b :: rest => if b.name = n then f b :: rest else b :: updateFirst n f rest

/-! ## command.py -/

/-- `urlparse(url).netloc` for a URL carrying an `http`/`https` scheme
(which `normalize_url` guarantees before any netloc is taken): the
authority component is what follows `//` up to the first `/`, `?` or `#`.
A URL with neither scheme parses with an empty netloc. -/
def urlNetloc (url : String) : String :=
  let cs := url.toList
  let netChars := fun (l : List Char) =>
    l.takeWhile (fun c => !(c = '/' || c = '?' || c = '#'))
  if List.isPrefixOf "https://".toList cs then String.mk (netChars (cs.drop 8))
  else if List.isPrefixOf "http://".toList cs then String.mk (netChars (cs.drop 7))
  else ""

/-- `normalize_url` (command.py:27). -/
def normalize_url (url : String) : String :=
  if pyStartsWith url "http://" || pyStartsWith url "https://" then url
  else "https://" ++ url

/-- `get_button_name_from_url` (command.py:22):
`urlparse(url).netloc.replace("www.", "")`. -/
def get_button_name_from_url (url : String) : String :=
  String.mk (stripWWW (urlNetloc url).toList)

/-- `get_mode` (command.py:33): mode of the named button, defaulting to
`browser` when the button or its `mode` key is missing. -/
def get_mode (buttons : Registry) (button_name : String) : Mode :=
  match buttons.find? (fun b => b.name == button_name) with
  | none => Mode.browser
  | some b => b.mode.getD Mode.browser

/-- `set_mode` (command.py:41).  Result: (exit code, persisted registry). -/
def set_mode (args : List String) (buttons : Registry) : Nat × Registry :=
  match args with
  | a0 :: a1 :: _ =>
    let mode := pyLower a1
    if mode ≠ "browser" ∧ mode ≠ "quiet" then (1, buttons)
    else if buttons.any (fun b => b.name == a0) then
      (0, updateFirst a0 (fun b =>
        { b with mode := some (if mode = "browser" then Mode.browser else Mode.quiet) }) buttons)
    else (1, buttons)
  | _ => (1, buttons)

/-- `add_body` (command.py:63): sets `body` and forces `method = 'POST'`
on the named button; exit 1 without mutation when the arguments are short
or the button is missing. -/
def add_body (args : List String) (buttons : Registry) : Nat × Registry :=
  match args with
  | a0 :: a1 :: rest =>
    let body := pyJoinSpace (a1 :: rest)
    if buttons.any (fun b => b.name == a0) then
      (0, updateFirst a0 (fun b =>
        { b with body := some body, method := some Method.POST }) buttons)
    else (1, buttons)
  | _ => (1, buttons)

/-- Modelled from the spec: the response of the external HTTP client
(`workflow.web`, not part of this repository's three source files).  A
request either fails with a transport error / unexpected exception, or
produces a response with a status code and a body; per §4.3 of the spec,
`raise_for_status` raises exactly when the status is not 2xx/3xx. -/
inductive HttpResult where
  | err
  | resp (status_code : Nat) (text : String)
deriving Repr, DecidableEq

/-- Modelled from the spec: the statuses `raise_for_status` accepts
(2xx/3xx). -/
def statusOk (s : Nat) : Bool :=
  decide (200 ≤ s ∧ s < 400)

/-- Observable outcome of `open_url` (command.py:84): whether it returned
`True`, whether `webbrowser.open` ran, and the quiet-mode report (status
code, first 200 characters of the response body) if one was printed. -/
structure Outcome where
  ok : Bool
  browserOpened : Bool
  quietReport : Option (Nat × String)
deriving Repr, DecidableEq

/-- `open_url` (command.py:84).  The single `web.get`/`web.post` call is
the oracle `http`; the registry is read only to look up the button's mode.
The url/headers/cookies/body arguments of the Python function shape only
the request itself (absorbed into the oracle) and the exact URL text
handed to the browser, neither of which is observed here, so they are not
parameters of the model.  Control flow is faithful: `raise_for_status`
(line 104) runs before the mode is read (line 107) and before any
`webbrowser.open` (line 111); every exception path returns `False`. -/
def open_url (buttons : Registry) (button_name : Option String)
    (http : HttpResult) : Outcome :=
  match http with
  | HttpResult.err => ⟨false, false, none⟩
  | HttpResult.resp status text =>
    if statusOk status then
      let mode := match button_name with
        | some n => get_mode buttons n
        | none => Mode.browser
      match mode with
      | Mode.browser => ⟨true, true, none⟩
      | Mode.quiet => ⟨true, false, some (status, String.mk (text.toList.take 200))⟩
    else ⟨false, false, none⟩

/-- `add_button` (command.py:121): normalize the URL, derive the name from
the URL when not given, refuse a duplicate name, otherwise append a fresh
record.  The created dict carries exactly the keys
`name, url, headers, cookies, mode, method` (source lines 137-144): no
`body` and no `last_used` key is written. -/
def add_button (args : List String) (buttons : Registry) : Nat × Registry :=
  match args with
  | [] => (1, buttons)
  | a0 :: rest =>
    let url := normalize_url a0
    let name := match rest with
      | n :: _ => n
      | [] => get_button_name_from_url url
    if buttons.any (fun b => b.name == name) then (1, buttons)
    else
      (0, buttons ++
        [⟨name, url, [], [], some Mode.browser, some Method.GET, none, none⟩])

/-- `add_header` (command.py:151). -/
def add_header (args : List String) (buttons : Registry) : Nat × Registry :=
  match args with
  | a0 :: a1 :: a2 :: rest =>
    let header_value := pyJoinSpace (a2 :: rest)
    if buttons.any (fun b => b.name == a0) then
      (0, updateFirst a0 (fun b =>
        { b with headers := upsert a1 header_value b.headers }) buttons)
    else (1, buttons)
  | _ => (1, buttons)

/-- The per-segment cookie upsert loop of `add_cookie` (command.py:196):
segments are processed in order, a segment with an `'='` contributes its
trimmed name and value, a segment without one is skipped (and flips the
`success` flag, handled by the caller). -/
def applyCookieSegs (segs : List String) (d : List (String × String)) :
    List (String × String) :=
  segs.foldl (fun acc c =>
    match splitFirstEq c with
    | some p => upsert (pyStrip p.1) (pyStrip p.2) acc
    | none => acc) d

/-- `add_cookie` (command.py:173).  The cookie string is split on `;` and
each segment stripped; the in-memory dict is updated segment by segment
but `save_web_buttons` runs only when every segment was well-formed, so
the persisted registry (returned here) is untouched when any segment
lacks `'='`. -/
def add_cookie (args : List String) (buttons : Registry) : Nat × Registry :=
  match args with
  | a0 :: a1 :: rest =>
    let cookie_str := pyJoinSpace (a1 :: rest)
    let cookies := (pySplitSemi cookie_str).map pyStrip
    if buttons.any (fun b => b.name == a0) then
      let success := cookies.all (fun c => (splitFirstEq c).isSome)
      if success then
        (0, updateFirst a0 (fun b =>
          { b with cookies := applyCookieSegs cookies b.cookies }) buttons)
      else (1, buttons)
    else (1, buttons)
  | _ => (1, buttons)

/-- `remove_button` (command.py:215). -/
def remove_button (args : List String) (buttons : Registry) : Nat × Registry :=
  match args with
  | [] => (1, buttons)
  | a0 :: _ =>
    if buttons.any (fun b => b.name == a0) then
      (0, buttons.filter (fun b => !(b.name == a0)))
    else (1, buttons)

/-- `open_button` (command.py:233): look the button up, delegate to
`open_url`, report exit 0/1 from the outcome.  No branch of this function
calls `save_web_buttons`: the persisted registry is returned unchanged on
every path (in particular `last_used` is never written here). -/
def open_button (args : List String) (buttons : Registry)
    (http : HttpResult) : Nat × Registry :=
  match args with
  | [] => (1, buttons)
  | a0 :: _ =>
    match buttons.find? (fun b => b.name == a0) with
    | none => (1, buttons)
    | some _ =>
      if (open_url buttons (some a0) http).ok then (0, buttons)
      else (1, buttons)

/-- `open_direct_url` (command.py:262): synthetic browser-mode GET on a
normalized URL; never touches the registry. -/
def open_direct_url (args : List String) (buttons : Registry)
    (http : HttpResult) : Nat × Registry :=
  match args with
  | [] => (1, buttons)
  | _ :: _ =>
    if (open_url buttons none http).ok then (0, buttons)
    else (1, buttons)

/-- `update_button_usage` (filter.py:392): sets `last_used` of the named
button to the current time and saves.  No caller of this function exists
anywhere in the source. -/
def update_button_usage (now : Nat) (button_name : String)
    (buttons : Registry) : Registry :=
  updateFirst button_name (fun b => { b with last_used := some now }) buttons

/-- The command surface dispatched by `main` (command.py:277).  The two
invoking commands carry the HTTP oracle for their single request. -/
inductive Cmd where
  | add (args : List String)
  | adh (args : List String)
  | adc (args : List String)
  | adb (args : List String)
  | remove (args : List String)
  | openBtn (args : List String) (http : HttpResult)
  | openUrl (args : List String) (http : HttpResult)
  | mode (args : List String)

/-- Dispatch of `main` (command.py:284-299) to the per-command handlers. -/
def runCommand (c : Cmd) (buttons : Registry) : Nat × Registry :=
  match c with
  | Cmd.add args => add_button args buttons
  | Cmd.adh args => add_header args buttons
  | Cmd.adc args => add_cookie args buttons
  | Cmd.adb args => add_body args buttons
  | Cmd.remove args => remove_button args buttons
  | Cmd.openBtn args http => open_button args buttons http
  | Cmd.openUrl args http => open_direct_url args buttons http
  | Cmd.mode args => set_mode args buttons

/-! ## filter.py : loading, listing, suggestion engine, favicon cache -/

/-- `load_web_buttons` (filter.py:400): load the stored registry and
backfill `last_used = 0` on every record missing the key ("default to 0
for never used"). -/
def load_web_buttons (stored : Registry) : Registry :=
  stored.map (fun b => { b with last_used := some (b.last_used.getD 0) })

/-- The sort key of `show_buttons` (filter.py:509):
`x.get('last_used', 0)`. -/
def lastUsedKey (b : Button) : Nat :=
  b.last_used.getD 0

/-- One step of a stable descending insertion by `lastUsedKey`: the new
element (which comes earlier in the original list than everything already
placed) passes over strictly larger keys and lands before the first
element whose key is `≤` its own, so equal keys keep their original
order. -/
def insertDesc (x : Button) : Registry → Registry
  | [] => [x]
  | y :: rest =>
    if lastUsedKey x < lastUsedKey y then y :: insertDesc x rest
    else x :: y :: rest

/-- `buttons.sort(key=lambda x: x.get('last_used', 0), reverse=True)`
(filter.py:509).  Python's `list.sort` is stable also under
`reverse=True` (equal keys keep list order); any stable descending sort is
extensionally unique, so this insertion sort is that function. -/
def sortDesc : Registry → Registry
  | [] => []
  | x :: xs => insertDesc x (sortDesc xs)

/-- `looks_like_url` (filter.py:42). -/
def looks_like_url (text : String) : Bool :=
  let t := pyStrip (pyLower text)
  pyStartsWith t "http://" || pyStartsWith t "https://" || pyStartsWith t "www." ||
  ([".com", ".org", ".net", ".edu", ".gov", ".io"].any (fun tld => pyEndsWith t tld)) ||
  (t.toList.contains '.' && !(t.toList.contains ' '))

/-- One feedback row passed to `wf.add_item`: its title, its invocable
argument (`none` for purely informational rows) and its validity flag.
The subtitle and icon are presentation-only fields (the icon comes from
the favicon cache modelled below) and carry no data the claims observe. -/
structure Item where
  title : String
  arg : Option String
  valid : Bool
deriving Repr, DecidableEq

/-- The row `show_buttons` emits for one button (filter.py:538 and 579):
valid, with argument `open <name>`. -/
def openItem (b : Button) : Item :=
  ⟨b.name, some ("open " ++ b.name), true⟩

/-- The informational row for an empty registry (filter.py:514). -/
def noButtonsItem : Item :=
  ⟨"No web buttons found", none, false⟩

/-- The direct-open row for a URL-looking query (filter.py:549). -/
def openUrlItem (q : String) : Item :=
  ⟨"Open URL: " ++ q, some ("open_url " ++ q), true⟩

/-- The query match of `show_buttons` (filter.py:558-563): the lowered
query is a substring of the lowered name or of the lowered URL. -/
def matchesQuery (query : String) (b : Button) : Bool :=
  isSubstring (pyLower query).toList (pyLower b.name).toList ||
  isSubstring (pyLower query).toList (pyLower b.url).toList

/-- `show_buttons` (filter.py:504): load, sort by `last_used` descending,
then either list everything (no query) or the URL-row plus the matching
buttons.  The listing path calls no save: it is a pure read of the
registry. -/
def show_buttons (stored : Registry) (query : Option String) : List Item :=
  let buttons := sortDesc (load_web_buttons stored)
  match query with
  | none =>
    if buttons.isEmpty then [noButtonsItem]
    else buttons.map openItem
  | some q =>
    (if looks_like_url q then [openUrlItem q] else []) ++
    (buttons.filter (matchesQuery q)).map openItem

/-- The favicon TTL (filter.py:440): `7 * 24 * 60 * 60` seconds. -/
def one_week_seconds : Nat := 7 * 24 * 60 * 60

/-- The cache path `get_favicon_path` computes for a domain
(filter.py:423): a file named by a digest of the domain in the cache
directory; the digest is abstracted to the domain itself, which preserves
exactly the property used (one stable filename per domain). -/
def favicon_cache_path (domain : String) : String :=
  "favicons/" ++ domain ++ ".ico"

/-- The environment `fetch_favicon` runs against: the URL's domain
(`urlparse(url).netloc`), whether the cache file exists, its age in
seconds (`time.time() - getmtime`), and — for each candidate favicon URL
tried in order (discovered links first, then the four fixed fallbacks) —
whether that candidate produced a valid icon (2xx fetch, image-ish
content type, non-empty file written). -/
structure FaviconEnv where
  domain : String
  cacheExists : Bool
  cacheAge : Nat
  candidateResults : List Bool
deriving Repr, DecidableEq

/-- `fetch_favicon` (filter.py:432).  Returns the resulting icon path (or
`none`) together with whether any network request was made.  A missing
domain yields `none` at once (filter.py:435); a cache file younger than a
week is returned with no network call (filter.py:439-441); otherwise the
candidates are tried in order and the first success wins; when everything
fails the `try/except` funnels to `return None` — never an error. -/
def fetch_favicon (env : FaviconEnv) : Option String × Bool :=
  if env.domain = "" then (none, false)
  else if env.cacheExists && decide (env.cacheAge < one_week_seconds) then
    (some (favicon_cache_path env.domain), false)
  else if env.candidateResults.any (fun r => r) then
    (some (favicon_cache_path env.domain), true)
  else (none, true)

/-- Modelled from the spec (for the C4 refinement comparison): the spec's
words "derives `name` from the URL host (strips a leading `www.`)" — the
host with one leading `www.` prefix removed and nothing else changed. -/
def specHostLeadingWWWStripped (host : String) : String :=
  if pyStartsWith host "www." then String.mk (host.toList.drop 4) else host

/-- Whether a feedback row is one of the sub-action suggestions the
detail-view claim describes (add header/cookie/body, set mode, remove):
its argument would dispatch one of those commands. -/
def isSubActionItem (i : Item) : Bool :=
  match i.arg with
  | some s => ["adh", "adc", "adb", "mode", "remove"].any (fun c => pyStartsWith s c)
  | none => false

/-- Replace a button's cookie map (the in-place `button['cookies'] = …`
effect of the cookie loop). -/
def setCookies (cs : List (String × String)) (b : Button) : Button :=
  { b with cookies := cs }

/-- The record mutation of `add_body` (command.py:78-79): set `body` and
force `method = 'POST'`. -/
def setBodyPost (body : String) (b : Button) : Button :=
  { b with body := some body, method := some Method.POST }

/-! ## Concrete fixtures used by witnesses and counterexamples -/

/-- The registry of the spec's `open` scenario: one action `example.com`
in quiet mode with a POST body, never used (`last_used` stored as 0). -/
def regOpenScenario : Registry :=
  [⟨"example.com", "https://example.com", [], [], some Mode.quiet,
    some Method.POST, some "payload", some 0⟩]

/-- A one-action registry with default fields. -/
def regOneDefault : Registry :=
  [⟨"example.com", "https://example.com", [], [], some Mode.browser,
    some Method.GET, none, none⟩]

/-- A registry whose action `x` starts with one stored cookie. -/
def regCookieStart : Registry :=
  [⟨"x", "https://x", [], [("old", "v")], some Mode.browser,
    some Method.GET, none, none⟩]

/-- A three-action registry with a `last_used` tie between the first and
third records and a middle record missing the `last_used` key. -/
def regTie : Registry :=
  [⟨"a", "https://a", [], [], some Mode.browser, some Method.GET, none, some 5⟩,
   ⟨"b", "https://b", [], [], some Mode.browser, some Method.GET, none, none⟩,
   ⟨"c", "https://c", [], [], some Mode.browser, some Method.GET, none, some 5⟩]

/-! ## Invariant predicates -/

/-- Names are unique across the registry (case-sensitive). -/
def namesNodup (reg : Registry) : Prop :=
  (reg.map Button.name).Nodup

/-- Schema invariant: a record with a `body` has `method = POST`. -/
def BodyImpliesPost (reg : Registry) : Prop :=
  ∀ b ∈ reg, b.body.isSome = true → b.method = some Method.POST

/-! ## Helper lemmas -/

theorem stripWWW_of_not_sub : ∀ l : List Char,
    isSubstring ['w', 'w', 'w', '.'] l = false → stripWWW l = l := by
  intro l
  induction l using stripWWW.induct with
  | case1 rest ih =>
    intro h
    simp [isSubstring, List.isPrefixOf] at h
  | case2 c rest hne ih =>
    intro h
    rw [isSubstring, Bool.or_eq_false_iff] at h
    rw [stripWWW.eq_2 c rest hne, ih h.2]
  | case3 =>
    intro h
    rfl

theorem mem_updateFirst {b' : Button} {n : String} {f : Button → Button} :
    ∀ {l : Registry}, b' ∈ updateFirst n f l → b' ∈ l ∨ ∃ b ∈ l, b' = f b := by
  intro l
  induction l with
  | nil => intro h; cases h
  | cons c rest ih =>
    intro h
    rw [updateFirst] at h
    by_cases hc : c.name = n
    · rw [if_pos hc] at h
      rcases List.mem_cons.mp h with h1 | h1
      · exact Or.inr ⟨c, List.mem_cons_self .., h1⟩
      · exact Or.inl (List.mem_cons_of_mem _ h1)
    · rw [if_neg hc] at h
      rcases List.mem_cons.mp h with h1 | h1
      · exact Or.inl (h1 ▸ List.mem_cons_self ..)
      · rcases ih h1 with h2 | ⟨b, hb, rfl⟩
        · exact Or.inl (List.mem_cons_of_mem _ h2)
        · exact Or.inr ⟨b, List.mem_cons_of_mem _ hb, rfl⟩

theorem find?_updateFirst {n : String} {f : Button → Button}
    (hf : ∀ b, (f b).name = b.name) :
    ∀ {l : Registry} {b : Button},
      l.find? (fun x => x.name == n) = some b →
      (updateFirst n f l).find? (fun x => x.name == n) = some (f b) := by
  intro l
  induction l with
  | nil => intro b h; simp at h
  | cons c rest ih =>
    intro b h
    by_cases hc : c.name = n
    · rw [List.find?_cons_of_pos _ (by simpa using hc)] at h
      cases h
      rw [updateFirst, if_pos hc]
      exact List.find?_cons_of_pos _ (by simpa using (hf c).trans hc)
    · rw [List.find?_cons_of_neg _ (by simpa using hc)] at h
      rw [updateFirst, if_neg hc]
      rw [List.find?_cons_of_neg _ (by simpa using hc)]
      exact ih h

theorem updateFirst_of_not_mem {n : String} {f : Button → Button} :
    ∀ {l : Registry}, l.any (fun b => b.name == n) = false →
      updateFirst n f l = l := by
  intro l
  induction l with
  | nil => intro _; rfl
  | cons c rest ih =>
    intro h
    simp only [List.any_cons, Bool.or_eq_false_iff] at h
    rw [updateFirst, if_neg (by simpa using h.1), ih h.2]

theorem insertDesc_perm (x : Button) (l : Registry) :
    List.Perm (insertDesc x l) (x :: l) := by
  induction l with
  | nil => exact List.Perm.refl _
  | cons y rest ih =>
    rw [insertDesc]
    split
    · exact ((ih.cons y).trans (List.Perm.swap x y rest))
    · exact List.Perm.refl _

theorem sortDesc_perm (l : Registry) : List.Perm (sortDesc l) l := by
  induction l with
  | nil => exact List.Perm.refl _
  | cons x xs ih =>
    rw [sortDesc]
    exact (insertDesc_perm x (sortDesc xs)).trans (ih.cons x)

theorem insertDesc_pairwise (x : Button) {l : Registry}
    (h : l.Pairwise (fun a b => lastUsedKey b ≤ lastUsedKey a)) :
    (insertDesc x l).Pairwise (fun a b => lastUsedKey b ≤ lastUsedKey a) := by
  induction l with
  | nil => simp [insertDesc]
  | cons y rest ih =>
    rw [List.pairwise_cons] at h
    rw [insertDesc]
    split
    · rename_i hlt
      rw [List.pairwise_cons]
      refine ⟨?_, ih h.2⟩
      intro z hz
      have hz' : z = x ∨ z ∈ rest :=
        List.mem_cons.mp ((insertDesc_perm x rest).mem_iff.mp hz)
      rcases hz' with rfl | hz'
      · exact Nat.le_of_lt hlt
      · exact h.1 z hz'
    · rename_i hge
      rw [List.pairwise_cons]
      refine ⟨?_, List.pairwise_cons.mpr h⟩
      intro z hz
      rcases List.mem_cons.mp hz with rfl | hz'
      · exact Nat.le_of_not_lt hge
      · exact Nat.le_trans (h.1 z hz') (Nat.le_of_not_lt hge)

theorem sortDesc_pairwise (l : Registry) :
    (sortDesc l).Pairwise (fun a b => lastUsedKey b ≤ lastUsedKey a) := by
  induction l with
  | nil => simp [sortDesc]
  | cons x xs ih => exact insertDesc_pairwise x ih

theorem insertDesc_filter (x : Button) (l : Registry) (k : Nat) :
    (insertDesc x l).filter (fun b => lastUsedKey b == k) =
      if lastUsedKey x = k then x :: l.filter (fun b => lastUsedKey b == k)
      else l.filter (fun b => lastUsedKey b == k) := by
  induction l with
  | nil => by_cases hx : lastUsedKey x = k <;> simp [insertDesc, hx]
  | cons y rest ih =>
    rw [insertDesc]
    split
    · rename_i hlt
      by_cases hy : lastUsedKey y = k
      · have hx : ¬ lastUsedKey x = k := by
          intro hx
          rw [hx, hy] at hlt
          exact Nat.lt_irrefl k hlt
        rw [if_neg hx]
        rw [List.filter_cons_of_pos (by simpa using hy)]
        rw [List.filter_cons_of_pos (by simpa using hy)]
        rw [ih, if_neg hx]
      · rw [List.filter_cons_of_neg (by simpa using hy)]
        rw [List.filter_cons_of_neg (by simpa using hy)]
        exact ih
    · by_cases hx : lastUsedKey x = k
      · rw [if_pos hx]
        rw [List.filter_cons_of_pos (by simpa using hx)]
      · rw [if_neg hx]
        rw [List.filter_cons_of_neg (by simpa using hx)]

theorem sortDesc_filter (l : Registry) (k : Nat) :
    (sortDesc l).filter (fun b => lastUsedKey b == k) =
      l.filter (fun b => lastUsedKey b == k) := by
  induction l with
  | nil => rfl
  | cons x xs ih =>
    rw [sortDesc, insertDesc_filter, ih]
    by_cases hx : lastUsedKey x = k
    · rw [if_pos hx, List.filter_cons_of_pos (by simpa using hx)]
    · rw [if_neg hx, List.filter_cons_of_neg (by simpa using hx)]

theorem isPrefixOf_cons_false {x y : Char} (xs ys : List Char)
    (h : (x == y) = false) :
    List.isPrefixOf (x :: xs) (y :: ys) = false := by
  simp [List.isPrefixOf, h]

theorem isSubActionItem_of_arg_o (title : String) (valid : Bool)
    (arg : String) (rest : List Char) (harg : arg.toList = 'o' :: rest) :
    isSubActionItem ⟨title, some arg, valid⟩ = false := by
  have h1 : "adh".toList = 'a' :: "dh".toList := rfl
  have h2 : "adc".toList = 'a' :: "dc".toList := rfl
  have h3 : "adb".toList = 'a' :: "db".toList := rfl
  have h4 : "mode".toList = 'm' :: "ode".toList := rfl
  have h5 : "remove".toList = 'r' :: "emove".toList := rfl
  simp only [isSubActionItem, List.any_cons, List.any_nil, pyStartsWith,
    h1, h2, h3, h4, h5, harg]
  rw [isPrefixOf_cons_false _ _ (by decide), isPrefixOf_cons_false _ _ (by decide),
    isPrefixOf_cons_false _ _ (by decide), isPrefixOf_cons_false _ _ (by decide),
    isPrefixOf_cons_false _ _ (by decide)]
  rfl

theorem toList_open_append (s : String) :
    ("open " ++ s).toList = 'o' :: 'p' :: 'e' :: 'n' :: ' ' :: s.toList := rfl

theorem toList_open_url_append (s : String) :
    ("open_url " ++ s).toList =
      'o' :: 'p' :: 'e' :: 'n' :: '_' :: 'u' :: 'r' :: 'l' :: ' ' :: s.toList := rfl

theorem isSubActionItem_openItem (b : Button) :
    isSubActionItem (openItem b) = false :=
  isSubActionItem_of_arg_o _ _ _ _ (toList_open_append b.name)

theorem isSubActionItem_openUrlItem (q : String) :
    isSubActionItem (openUrlItem q) = false :=
  isSubActionItem_of_arg_o _ _ _ _ (toList_open_url_append q)

theorem any_name_eq_false_of_all {reg : Registry} {n : String}
    (h : reg.any (fun b => b.name == n) = false) :
    ∀ b ∈ reg, b.name ≠ n := by
  intro b hb heq
  have : reg.any (fun x => x.name == n) = true :=
    List.any_eq_true.mpr ⟨b, hb, by simpa using heq⟩
  rw [h] at this
  cases this

theorem all_isSome_eq_false_of_any {l : List String}
    (h : l.any (fun s => (splitFirstEq s).isNone) = true) :
    l.all (fun s => (splitFirstEq s).isSome) = false := by
  rcases List.any_eq_true.mp h with ⟨s, hs, hnone⟩
  by_contra hall
  rw [Bool.not_eq_false, List.all_eq_true] at hall
  have := hall s hs
  rw [Option.isNone_iff_eq_none] at hnone
  rw [hnone] at this
  cases this

theorem add_button_preserves_namesNodup (args : List String) (reg : Registry)
    (h : namesNodup reg) : namesNodup (add_button args reg).2 := by
  cases args with
  | nil => exact h
  | cons a0 rest =>
    simp only [add_button]
    split
    · exact h
    · rename_i hany
      rw [Bool.not_eq_true] at hany
      unfold namesNodup at h ⊢
      rw [List.map_append, List.map_cons, List.map_nil, List.nodup_append]
      refine ⟨h, List.nodup_singleton _, ?_⟩
      intro x hx hx'
      rw [List.mem_singleton] at hx'
      subst hx'
      rcases List.mem_map.mp hx with ⟨b, hb, hbn⟩
      exact any_name_eq_false_of_all hany b hb hbn

theorem add_button_foldl_namesNodup (argss : List (List String)) :
    ∀ reg : Registry, namesNodup reg →
      namesNodup (argss.foldl (fun r args => (add_button args r).2) reg) := by
  induction argss with
  | nil =>
    intro reg h
    exact h
  | cons a as ih =>
    intro reg h
    rw [List.foldl_cons]
    exact ih _ (add_button_preserves_namesNodup a reg h)

theorem open_button_registry_unchanged (args : List String) (reg : Registry)
    (http : HttpResult) : (open_button args reg http).2 = reg := by
  cases args with
  | nil => rfl
  | cons a0 r =>
    simp only [open_button]
    cases reg.find? (fun b => b.name == a0) with
    | none => rfl
    | some b =>
      by_cases hok : (open_url reg (some a0) http).ok = true
      · simp [hok]
      · simp [hok]

theorem open_direct_url_registry_unchanged (args : List String) (reg : Registry)
    (http : HttpResult) : (open_direct_url args reg http).2 = reg := by
  cases args with
  | nil => rfl
  | cons a0 r =>
    simp only [open_direct_url]
    by_cases hok : (open_url reg none http).ok = true
    · simp [hok]
    · simp [hok]

theorem BodyImpliesPost_updateFirst {reg : Registry} {n : String}
    {f : Button → Button} (h : BodyImpliesPost reg)
    (hf : ∀ b, b ∈ reg → (b.body.isSome = true → b.method = some Method.POST) →
      ((f b).body.isSome = true → (f b).method = some Method.POST)) :
    BodyImpliesPost (updateFirst n f reg) := by
  intro b' hb' hbody
  rcases mem_updateFirst hb' with hmem | ⟨b, hb, rfl⟩
  · exact h b' hmem hbody
  · exact hf b hb (h b hb) hbody

theorem BodyImpliesPost_runCommand (c : Cmd) (reg : Registry)
    (h : BodyImpliesPost reg) : BodyImpliesPost (runCommand c reg).2 := by
  cases c with
  | add args =>
    cases args with
    | nil => exact h
    | cons a0 rest =>
      simp only [runCommand, add_button]
      split
      · exact h
      · intro b hb hbody
        rcases List.mem_append.mp hb with hmem | hmem
        · exact h b hmem hbody
        · rw [List.mem_singleton] at hmem
          subst hmem
          cases hbody
  | adh args =>
    match args with
    | [] => exact h
    | [a0] => exact h
    | [a0, a1] => exact h
    | a0 :: a1 :: a2 :: rest =>
      simp only [runCommand, add_header]
      split
      · exact BodyImpliesPost_updateFirst h (fun b hb hbp hbody => hbp hbody)
      · exact h
  | adc args =>
    match args with
    | [] => exact h
    | [a0] => exact h
    | a0 :: a1 :: rest =>
      simp only [runCommand, add_cookie]
      split
      · split
        · exact BodyImpliesPost_updateFirst h (fun b hb hbp hbody => hbp hbody)
        · exact h
      · exact h
  | adb args =>
    match args with
    | [] => exact h
    | [a0] => exact h
    | a0 :: a1 :: rest =>
      simp only [runCommand, add_body]
      split
      · exact BodyImpliesPost_updateFirst h (fun b hb hbp hbody => rfl)
      · exact h
  | remove args =>
    cases args with
    | nil => exact h
    | cons a0 r =>
      simp only [runCommand, remove_button]
      split
      · intro b hb hbody
        exact h b (List.mem_of_mem_filter hb) hbody
      · exact h
  | openBtn args http =>
    rw [runCommand, open_button_registry_unchanged]
    exact h
  | openUrl args http =>
    rw [runCommand, open_direct_url_registry_unchanged]
    exact h
  | mode args =>
    match args with
    | [] => exact h
    | [a0] => exact h
    | a0 :: a1 :: rest =>
      simp only [runCommand, set_mode]
      split
      · exact h
      · split
        · exact BodyImpliesPost_updateFirst h (fun b hb hbp hbody => hbp hbody)
        · exact h

/-! ## Claim theorems -/

/-- C1: the claim says a successful `open <name>` updates the action's
`last_used` to the current time and persists the registry.  The code does
not: `open_button` (command.py:233) calls no save on any path — the
function `update_button_usage` that would set `last_used` (filter.py:392)
has no caller — so the persisted registry is returned unchanged by every
`open`, and in the concrete success scenario (`example.com`, quiet mode,
HTTP 200) the exit code is 0 while `last_used` stays at its old value 0. -/
theorem c1_open_never_updates_last_used :
    (∀ (args : List String) (reg : Registry) (http : HttpResult),
      (open_button args reg http).2 = reg)
    ∧ open_button ["example.com"] regOpenScenario (HttpResult.resp 200 "done")
        = (0, regOpenScenario)
    ∧ update_button_usage 1 "example.com" regOpenScenario ≠ regOpenScenario := by
  refine ⟨?_, by decide, by decide⟩
  intro args reg http
  exact open_button_registry_unchanged args reg http

/-- C6: any transport error or unexpected exception of the single HTTP
request, and any non-2xx/3xx status, makes `open_url` return a failed
outcome with no browser-open side effect (the `raise_for_status` on
command.py:104 runs before the mode branch on 107-111), and the command
layer (`open_button`) then reports exit code 1 with the registry
untouched. -/
theorem c6_invoker_failure_semantics (reg : Registry) (bn : Option String)
    (http : HttpResult) :
    (http = HttpResult.err →
      open_url reg bn http = ⟨false, false, none⟩)
    ∧ (∀ status text, http = HttpResult.resp status text →
        statusOk status = false →
        open_url reg bn http = ⟨false, false, none⟩)
    ∧ (∀ name, (reg.find? (fun b => b.name == name)).isSome = true →
        (open_url reg (some name) http).ok = false →
        open_button [name] reg http = (1, reg)) := by
  refine ⟨?_, ?_, ?_⟩
  · intro h
    subst h
    rfl
  · intro status text h hbad
    subst h
    simp [open_url, hbad]
  · intro name hfind hbad
    cases hf : reg.find? (fun b => b.name == name) with
    | none =>
      rw [hf] at hfind
      cases hfind
    | some b =>
      simp only [open_button, hf]
      rw [hbad]
      rfl

/-- C6 witness: the three failure shapes at concrete inputs — transport
error, HTTP 404, and a 500 on a stored button (exit 1, registry
unchanged). -/
theorem c6_witness :
    open_url [] none HttpResult.err = ⟨false, false, none⟩
    ∧ open_url [] none (HttpResult.resp 404 "nope") = ⟨false, false, none⟩
    ∧ open_button ["example.com"] regOneDefault (HttpResult.resp 500 "boom")
        = (1, regOneDefault) :=
  ⟨(c6_invoker_failure_semantics [] none HttpResult.err).1 rfl,
   (c6_invoker_failure_semantics [] none (HttpResult.resp 404 "nope")).2.1
     404 "nope" rfl (by decide),
   (c6_invoker_failure_semantics regOneDefault (some "example.com")
       (HttpResult.resp 500 "boom")).2.2
     "example.com" (by decide) (by decide)⟩

/-- C9: with a cache file younger than 7 days `fetch_favicon` returns the
cached path with no network activity; a stale (or absent) cache triggers
the network re-fetch attempt; and when every candidate fails the result
is `none` — the function is total, never a hard error. -/
theorem c9_favicon_ttl (env : FaviconEnv) (hdom : env.domain ≠ "") :
    (env.cacheExists = true → env.cacheAge < one_week_seconds →
      fetch_favicon env = (some (favicon_cache_path env.domain), false))
    ∧ ((env.cacheExists = false ∨ one_week_seconds ≤ env.cacheAge) →
        (fetch_favicon env).2 = true)
    ∧ ((env.cacheExists = false ∨ one_week_seconds ≤ env.cacheAge) →
        env.candidateResults.all (fun r => !r) = true →
        (fetch_favicon env).1 = none) := by
  have hfresh : ∀ (hc : (env.cacheExists = false ∨ one_week_seconds ≤ env.cacheAge)),
      (env.cacheExists && decide (env.cacheAge < one_week_seconds)) = false := by
    intro hc
    rcases hc with hc | hc
    · rw [hc, Bool.false_and]
    · rw [decide_eq_false (Nat.not_lt.mpr hc), Bool.and_false]
  refine ⟨?_, ?_, ?_⟩
  · intro hex hage
    rw [fetch_favicon, if_neg hdom,
      if_pos (by rw [hex, Bool.true_and]; exact decide_eq_true hage)]
  · intro hc
    rw [fetch_favicon, if_neg hdom, if_neg (by rw [hfresh hc]; exact Bool.false_ne_true)]
    by_cases hany : env.candidateResults.any (fun r => r) = true
    · rw [if_pos hany]
    · rw [if_neg hany]
  · intro hc hall
    have hany : env.candidateResults.any (fun r => r) = false := by
      by_contra hany
      rw [Bool.not_eq_false, List.any_eq_true] at hany
      rcases hany with ⟨r, hr, hrt⟩
      have := List.all_eq_true.mp hall r hr
      rw [hrt] at this
      cases this
    rw [fetch_favicon, if_neg hdom, if_neg (by rw [hfresh hc]; exact Bool.false_ne_true),
      if_neg (by rw [hany]; exact Bool.false_ne_true)]

/-- C9 witness: a 6-day-old cached icon is returned without network
activity; an 8-day-old one triggers a re-fetch, and with all four
fallback candidates failing the result is `none`. -/
theorem c9_witness :
    fetch_favicon ⟨"example.com", true, 6 * 24 * 60 * 60, []⟩
      = (some (favicon_cache_path "example.com"), false)
    ∧ (fetch_favicon ⟨"example.com", true, 8 * 24 * 60 * 60,
        [false, false, false, false]⟩).2 = true
    ∧ (fetch_favicon ⟨"example.com", true, 8 * 24 * 60 * 60,
        [false, false, false, false]⟩).1 = none :=
  ⟨(c9_favicon_ttl ⟨"example.com", true, 6 * 24 * 60 * 60, []⟩
      (by decide)).1 rfl (by decide),
   (c9_favicon_ttl ⟨"example.com", true, 8 * 24 * 60 * 60,
      [false, false, false, false]⟩ (by decide)).2.1 (Or.inr (by decide)),
   (c9_favicon_ttl ⟨"example.com", true, 8 * 24 * 60 * 60,
      [false, false, false, false]⟩ (by decide)).2.2 (Or.inr (by decide)) rfl⟩

/-- C4 counterexample: the claim says the derived name is the host with
only a leading `www.` stripped and a host not starting with `www.` is
used verbatim.  For `add app.www.example.com` the normalized URL's host
is `app.www.example.com`, which does not start with `www.`, yet the code
derives `app.example.com`: Python's `replace("www.", "")` removes the
interior occurrence too, so the derived name differs from the
leading-strip reading of the spec. -/
theorem c4_counterexample :
    urlNetloc (normalize_url "app.www.example.com") = "app.www.example.com"
    ∧ pyStartsWith (urlNetloc (normalize_url "app.www.example.com")) "www." = false
    ∧ get_button_name_from_url (normalize_url "app.www.example.com")
        = "app.example.com"
    ∧ get_button_name_from_url (normalize_url "app.www.example.com")
        ≠ specHostLeadingWWWStripped (urlNetloc (normalize_url "app.www.example.com")) := by
  refine ⟨by decide, by decide, by decide, by decide⟩

/-- C4 amended: for `add <url>` without an explicit name (when the
derived name is fresh), the created action's name is the normalized URL's
host with every leftmost non-overlapping occurrence of the substring
`www.` removed (Python `str.replace`), not only a leading one; a host
containing no occurrence of `www.` at all is used verbatim. -/
theorem c4_amended_derived_name (a0 : String) (reg : Registry)
    (hfresh : reg.any
      (fun b => b.name == get_button_name_from_url (normalize_url a0)) = false) :
    ∃ b : Button,
      add_button [a0] reg = (0, reg ++ [b])
      ∧ b.name = String.mk (stripWWW (urlNetloc (normalize_url a0)).toList)
      ∧ (isSubstring ['w', 'w', 'w', '.'] (urlNetloc (normalize_url a0)).toList = false →
          b.name = urlNetloc (normalize_url a0)) := by
  refine ⟨⟨get_button_name_from_url (normalize_url a0), normalize_url a0, [], [],
    some Mode.browser, some Method.GET, none, none⟩, ?_, rfl, ?_⟩
  · simp only [add_button]
    rw [if_neg (by rw [hfresh]; exact Bool.false_ne_true)]
  · intro hno
    show String.mk (stripWWW (urlNetloc (normalize_url a0)).toList) = _
    rw [stripWWW_of_not_sub _ hno]
    rfl

/-- C4 amended witness: adding `www.www.example.com` to an empty registry
creates the action named `example.com` (both occurrences removed). -/
theorem c4_amended_witness :
    ∃ b : Button,
      add_button ["www.www.example.com"] [] = (0, [] ++ [b])
      ∧ b.name = String.mk (stripWWW
          (urlNetloc (normalize_url "www.www.example.com")).toList)
      ∧ (isSubstring ['w', 'w', 'w', '.']
            (urlNetloc (normalize_url "www.www.example.com")).toList = false →
          b.name = urlNetloc (normalize_url "www.www.example.com")) :=
  c4_amended_derived_name "www.www.example.com" [] (by decide)

/-- C10 counterexample: the claim says the persisted record after a
successful `add` contains all eight schema fields with `last_used` equal
to 0.  The dict `add_button` persists (command.py:137-144) carries only
the six keys `name, url, headers, cookies, mode, method`: the stored
record after `add example.com` has no `last_used` key at all
(`none`, not `some 0`). -/
theorem c10_counterexample :
    (add_button ["example.com"] []).2
      = [⟨"example.com", "https://example.com", [], [], some Mode.browser,
          some Method.GET, none, none⟩]
    ∧ ((add_button ["example.com"] []).2.all
        (fun b => b.last_used == none && b.body == none)) = true
    ∧ ¬ ((add_button ["example.com"] []).2.all
        (fun b => b.last_used == some 0)) = true := by
  refine ⟨by decide, by decide, by decide⟩

/-- C10 amended: after every successful `add`, the persisted record
carries the six keys `name, url, headers, cookies, mode, method` with
method GET, mode browser and empty header/cookie maps; the `body` and
`last_used` keys are absent from the persisted record, and the missing
`last_used` reads back as 0 ("never used") — `load_web_buttons`
backfills it and the sort key defaults it. -/
theorem c10_amended_add_defaults (a0 : String) (rest : List String)
    (reg : Registry)
    (hfresh : reg.any (fun b => b.name ==
      (match rest with
       | n :: _ => n
       | [] => get_button_name_from_url (normalize_url a0))) = false) :
    ∃ b : Button,
      add_button (a0 :: rest) reg = (0, reg ++ [b])
      ∧ b.url = normalize_url a0
      ∧ b.headers = [] ∧ b.cookies = []
      ∧ b.mode = some Mode.browser ∧ b.method = some Method.GET
      ∧ b.body = none ∧ b.last_used = none
      ∧ lastUsedKey b = 0
      ∧ load_web_buttons [b] = [{ b with last_used := some 0 }] := by
  cases rest with
  | nil =>
    replace hfresh : reg.any
        (fun b => b.name == get_button_name_from_url (normalize_url a0)) = false :=
      hfresh
    refine ⟨⟨get_button_name_from_url (normalize_url a0), normalize_url a0,
      [], [], some Mode.browser, some Method.GET, none, none⟩,
      ?_, rfl, rfl, rfl, rfl, rfl, rfl, rfl, rfl, rfl⟩
    simp only [add_button]
    rw [if_neg (by rw [hfresh]; exact Bool.false_ne_true)]
  | cons n rs =>
    replace hfresh : reg.any (fun b => b.name == n) = false := hfresh
    refine ⟨⟨n, normalize_url a0, [], [], some Mode.browser, some Method.GET,
      none, none⟩, ?_, rfl, rfl, rfl, rfl, rfl, rfl, rfl, rfl, rfl⟩
    simp only [add_button]
    rw [if_neg (by rw [hfresh]; exact Bool.false_ne_true)]

/-- C10 amended witness: the record created by `add example.com` on an
empty registry, with its defaults and the 0 read-back of the absent
`last_used` key. -/
theorem c10_amended_witness :
    ∃ b : Button,
      add_button ["example.com"] [] = (0, [] ++ [b])
      ∧ b.url = normalize_url "example.com"
      ∧ b.headers = [] ∧ b.cookies = []
      ∧ b.mode = some Mode.browser ∧ b.method = some Method.GET
      ∧ b.body = none ∧ b.last_used = none
      ∧ lastUsedKey b = 0
      ∧ load_web_buttons [b] = [{ b with last_used := some 0 }] :=
  c10_amended_add_defaults "example.com" [] [] (by decide)

/-- C5 counterexample: the claim says that when exactly one action
matches a non-empty query the engine additionally exposes sub-action
suggestions (add header/cookie/body, set mode, remove).  No such code
exists: for the query `exa` against a registry whose single action
`example.com` is the unique match, the emitted feedback is exactly the
one `open` row and nothing that dispatches a sub-action command. -/
theorem c5_counterexample :
    show_buttons regOneDefault (some "exa")
      = [⟨"example.com", some "open example.com", true⟩]
    ∧ (show_buttons regOneDefault (some "exa")).all
        (fun i => !(isSubActionItem i)) = true := by
  refine ⟨by decide, by decide⟩

/-- C5 amended: when exactly one action matches a non-empty query, the
engine lists exactly that action's `open` row (preceded by an
`open_url` row when the query itself looks like a URL); it exposes no
sub-action suggestions — no detail view exists — and the listing path
computes feedback rows only, never writing the registry. -/
theorem c5_amended_single_match (stored : Registry) (q : String) (b : Button)
    (hone : (sortDesc (load_web_buttons stored)).filter (matchesQuery q) = [b]) :
    show_buttons stored (some q)
      = (if looks_like_url q then [openUrlItem q] else []) ++ [openItem b]
    ∧ ∀ i ∈ show_buttons stored (some q), isSubActionItem i = false := by
  have hmain : show_buttons stored (some q)
      = (if looks_like_url q then [openUrlItem q] else []) ++ [openItem b] := by
    simp only [show_buttons]
    rw [hone]
    rfl
  refine ⟨hmain, ?_⟩
  intro i hi
  rw [hmain] at hi
  rcases List.mem_append.mp hi with hi | hi
  · by_cases hurl : looks_like_url q = true
    · rw [if_pos hurl, List.mem_singleton] at hi
      subst hi
      exact isSubActionItem_openUrlItem q
    · rw [if_neg hurl] at hi
      cases hi
  · rw [List.mem_singleton] at hi
    subst hi
    exact isSubActionItem_openItem b

/-- C5 amended witness: the unique match of query `exa` yields only the
open row of `example.com`. -/
theorem c5_amended_witness :
    show_buttons regOneDefault (some "exa")
      = (if looks_like_url "exa" then [openUrlItem "exa"] else [])
        ++ [openItem ⟨"example.com", "https://example.com", [], [],
            some Mode.browser, some Method.GET, none, some 0⟩]
    ∧ ∀ i ∈ show_buttons regOneDefault (some "exa"), isSubActionItem i = false :=
  c5_amended_single_match regOneDefault "exa"
    ⟨"example.com", "https://example.com", [], [],
      some Mode.browser, some Method.GET, none, some 0⟩ (by decide)

/-- C3: starting from a registry with pairwise-distinct names, every
sequence of `add` commands keeps the names pairwise distinct, and an
`add` whose explicit (second argument) or derived (from the URL host)
name collides with a stored one returns exit code 1 with the registry
unchanged. -/
theorem c3_add_uniqueness (reg : Registry) (h : namesNodup reg) :
    (∀ argss : List (List String),
      namesNodup (argss.foldl (fun r args => (add_button args r).2) reg))
    ∧ (∀ a0 rest, reg.any (fun b => b.name ==
        (match rest with
         | n :: _ => n
         | [] => get_button_name_from_url (normalize_url a0))) = true →
        add_button (a0 :: rest) reg = (1, reg)) := by
  refine ⟨fun argss => add_button_foldl_namesNodup argss reg h, ?_⟩
  intro a0 rest hdup
  cases rest with
  | nil =>
    replace hdup : reg.any
        (fun b => b.name == get_button_name_from_url (normalize_url a0)) = true :=
      hdup
    simp only [add_button]
    rw [if_pos hdup]
  | cons n rs =>
    replace hdup : reg.any (fun b => b.name == n) = true := hdup
    simp only [add_button]
    rw [if_pos hdup]

/-- C3 witness: a duplicate `add` (by derived name and by explicit name)
on a concrete registry is refused with exit code 1 and no change, and a
concrete command sequence keeps names unique. -/
theorem c3_witness :
    namesNodup regOneDefault
    ∧ namesNodup ([["example.com"], ["x.org"], ["example.com"]].foldl
        (fun r args => (add_button args r).2) regOneDefault)
    ∧ add_button ["whatever.org", "example.com"] regOneDefault
        = (1, regOneDefault) :=
  ⟨by unfold namesNodup; decide,
   (c3_add_uniqueness regOneDefault (by unfold namesNodup; decide)).1
     [["example.com"], ["x.org"], ["example.com"]],
   (c3_add_uniqueness regOneDefault (by unfold namesNodup; decide)).2 "whatever.org"
     ["example.com"] (by decide)⟩

/-- C2: for a registry containing an action `n`, `adc n "<cookies>"` is
all-or-nothing on the persisted registry — when any `;`-separated
(trimmed) segment lacks `=` the exit code is 1 and the persisted registry
(in particular `n`'s cookies) is unchanged, because `save_web_buttons`
only runs when every segment parsed; when every segment contains `=`,
each segment's trimmed name and value are upserted in order into `n`'s
cookie map and the exit code is 0. -/
theorem c2_adc_all_or_nothing (reg : Registry) (n cookieStr : String)
    (hmem : reg.any (fun b => b.name == n) = true) :
    ((((pySplitSemi cookieStr).map pyStrip).any
        (fun s => (splitFirstEq s).isNone)) = true →
      add_cookie [n, cookieStr] reg = (1, reg))
    ∧ ((((pySplitSemi cookieStr).map pyStrip).all
        (fun s => (splitFirstEq s).isSome)) = true →
      (add_cookie [n, cookieStr] reg).1 = 0
      ∧ ∀ b, reg.find? (fun x => x.name == n) = some b →
          (add_cookie [n, cookieStr] reg).2.find? (fun x => x.name == n)
            = some (setCookies
                (applyCookieSegs ((pySplitSemi cookieStr).map pyStrip) b.cookies) b)) := by
  have hred : add_cookie [n, cookieStr] reg =
      (if reg.any (fun b => b.name == n)
       then (if ((pySplitSemi cookieStr).map pyStrip).all
                (fun c => (splitFirstEq c).isSome)
             then (0, updateFirst n
               (fun b => setCookies
                 (applyCookieSegs ((pySplitSemi cookieStr).map pyStrip) b.cookies) b)
               reg)
             else (1, reg))
       else (1, reg)) := rfl
  constructor
  · intro hbad
    have hallf := all_isSome_eq_false_of_any hbad
    rw [hred, if_pos hmem, if_neg (by rw [hallf]; exact Bool.false_ne_true)]
  · intro hall
    rw [hred, if_pos hmem, if_pos hall]
    refine ⟨rfl, ?_⟩
    intro b hb
    exact @find?_updateFirst n
      (fun b => setCookies
        (applyCookieSegs ((pySplitSemi cookieStr).map pyStrip) b.cookies) b)
      (fun _ => rfl) reg b hb

/-- C2 witness: on a registry whose action `x` has one stored cookie,
`adc x "a=1; bad; b=2"` fails with exit 1 and no change, while
`adc x "a=1; b=2"` succeeds with exit 0 and upserts both cookies. -/
theorem c2_witness :
    add_cookie ["x", "a=1; bad; b=2"] regCookieStart = (1, regCookieStart)
    ∧ (add_cookie ["x", "a=1; b=2"] regCookieStart).1 = 0
    ∧ (add_cookie ["x", "a=1; b=2"] regCookieStart).2.find?
        (fun x => x.name == "x")
      = some ⟨"x", "https://x", [], [("old", "v"), ("a", "1"), ("b", "2")],
          some Mode.browser, some Method.GET, none, none⟩ := by
  refine ⟨(c2_adc_all_or_nothing regCookieStart "x" "a=1; bad; b=2"
      (by decide)).1 (by decide),
    ((c2_adc_all_or_nothing regCookieStart "x" "a=1; b=2"
      (by decide)).2 (by decide)).1, ?_⟩
  have h := ((c2_adc_all_or_nothing regCookieStart "x" "a=1; b=2"
      (by decide)).2 (by decide)).2
    ⟨"x", "https://x", [], [("old", "v")], some Mode.browser,
      some Method.GET, none, none⟩ (by decide)
  exact h.trans (by decide)

/-- C7: the invariant "a record with a `body` has `method = POST`" is
preserved by every command of the dispatch surface; `adb <name> <body>`
in particular fails with exit 1 and no mutation when the name is absent,
and otherwise sets `body` and forces `method = POST` on the named action
regardless of its prior method, with exit 0. -/
theorem c7_body_implies_post (c : Cmd) (reg : Registry)
    (h : BodyImpliesPost reg) :
    BodyImpliesPost (runCommand c reg).2
    ∧ (∀ n rest, reg.any (fun b => b.name == n) = false →
        add_body (n :: rest) reg = (1, reg))
    ∧ (∀ n a1 rest b, reg.find? (fun x => x.name == n) = some b →
        (add_body (n :: a1 :: rest) reg).1 = 0
        ∧ (add_body (n :: a1 :: rest) reg).2.find? (fun x => x.name == n)
            = some (setBodyPost (pyJoinSpace (a1 :: rest)) b)) := by
  refine ⟨BodyImpliesPost_runCommand c reg h, ?_, ?_⟩
  · intro n rest hnone
    cases rest with
    | nil => rfl
    | cons a1 rs =>
      simp only [add_body]
      rw [if_neg (by rw [hnone]; exact Bool.false_ne_true)]
  · intro n a1 rest b hb
    have hpb := List.find?_some hb
    have hany : reg.any (fun x => x.name == n) = true :=
      List.any_eq_true.mpr ⟨b, List.mem_of_find?_eq_some hb, hpb⟩
    constructor
    · simp only [add_body]
      rw [if_pos hany]
    · simp only [add_body]
      rw [if_pos hany]
      exact @find?_updateFirst n (setBodyPost (pyJoinSpace (a1 :: rest)))
        (fun _ => rfl) reg b hb

/-- C7 witness: `adb example.com payload` on a registry whose action has
method GET turns its method into POST and keeps the invariant; `adb` on a
missing name fails with exit 1 and no change. -/
theorem c7_witness :
    BodyImpliesPost (runCommand (Cmd.adb ["example.com", "payload"])
      regOneDefault).2
    ∧ add_body ["ghost", "payload"] regOneDefault = (1, regOneDefault)
    ∧ (add_body ["example.com", "payload"] regOneDefault).1 = 0
    ∧ (add_body ["example.com", "payload"] regOneDefault).2.find?
        (fun x => x.name == "example.com")
      = some ⟨"example.com", "https://example.com", [], [], some Mode.browser,
          some Method.POST, some "payload", none⟩ := by
  have hInv : BodyImpliesPost regOneDefault := by
    unfold BodyImpliesPost
    decide
  refine ⟨(c7_body_implies_post (Cmd.adb ["example.com", "payload"])
      regOneDefault hInv).1,
    (c7_body_implies_post (Cmd.adb []) regOneDefault hInv).2.1
      "ghost" ["payload"] (by decide), ?_, ?_⟩
  · exact ((c7_body_implies_post (Cmd.adb []) regOneDefault hInv).2.2
      "example.com" "payload" []
      ⟨"example.com", "https://example.com", [], [], some Mode.browser,
        some Method.GET, none, none⟩ (by decide)).1
  · have h := ((c7_body_implies_post (Cmd.adb []) regOneDefault hInv).2.2
      "example.com" "payload" []
      ⟨"example.com", "https://example.com", [], [], some Mode.browser,
        some Method.GET, none, none⟩ (by decide)).2
    exact h.trans (by decide)

/-- C8: listing with no query emits one `open` row per stored action,
ordered by `last_used` descending; the order is a permutation of the
loaded registry, sorted on the `last_used` key, stable on ties (for every
key value the tied records appear exactly in original registry order),
and a record with no `last_used` field sorts with key 0. -/
theorem c8_listing_order (stored : Registry) (h : stored ≠ []) :
    show_buttons stored none = (sortDesc (load_web_buttons stored)).map openItem
    ∧ List.Perm (sortDesc (load_web_buttons stored)) (load_web_buttons stored)
    ∧ (sortDesc (load_web_buttons stored)).Pairwise
        (fun a b => lastUsedKey b ≤ lastUsedKey a)
    ∧ (∀ k : Nat, (sortDesc (load_web_buttons stored)).filter
          (fun b => lastUsedKey b == k)
        = (load_web_buttons stored).filter (fun b => lastUsedKey b == k))
    ∧ (∀ b ∈ stored, b.last_used = none → lastUsedKey b = 0) := by
  refine ⟨?_, sortDesc_perm _, sortDesc_pairwise _,
    fun k => sortDesc_filter _ k, ?_⟩
  · have hne : sortDesc (load_web_buttons stored) ≠ [] := by
      intro he
      have hlen := (sortDesc_perm (load_web_buttons stored)).length_eq
      rw [he, load_web_buttons, List.length_map] at hlen
      cases stored with
      | nil => exact h rfl
      | cons c cs => simp at hlen
    simp only [show_buttons]
    cases hsort : sortDesc (load_web_buttons stored) with
    | nil => exact absurd hsort hne
    | cons x xs => rfl
  · intro b hb hnone
    rw [lastUsedKey, hnone]
    rfl

/-- C8 witness: with a `last_used` tie between actions `a` and `c` (key
5) and action `b` missing the key, the no-query listing is `a, c, b`
(ties in original order, the missing key sorting as 0), and the filter at
the tied key keeps original order. -/
theorem c8_witness :
    regTie ≠ []
    ∧ show_buttons regTie none
      = [⟨"a", some "open a", true⟩, ⟨"c", some "open c", true⟩,
         ⟨"b", some "open b", true⟩]
    ∧ (sortDesc (load_web_buttons regTie)).filter (fun b => lastUsedKey b == 5)
      = (load_web_buttons regTie).filter (fun b => lastUsedKey b == 5) := by
  refine ⟨by decide, ?_, (c8_listing_order regTie (by decide)).2.2.2.1 5⟩
  have h := (c8_listing_order regTie (by decide)).1
  rw [h]
  decide

end AlfredWebbutton
